import Mathlib

set_option autoImplicit false

/-- Decimal digit character with value n, used by the timestamp formatter. -/
def digitChar (n : Nat) : Char := Char.ofNat (48 + n)

/-- A wall-clock value as produced by datetime.now: Python datetime fields are
bounded (year at most 9999, month at most 12, day at most 31, hour at most 23,
minute and second at most 59), which the Fin types record. -/
structure DateTime where
  year : Fin 10000
  month : Fin 13
  day : Fin 32
  hour : Fin 24
  minute : Fin 60
  second : Fin 60
deriving DecidableEq

/-- Zero-padded two-digit decimal rendering, exactly what the strftime codes
m, d, H, M and S produce on the bounded datetime fields. -/
def pad2 (n : Nat) : String :=
  String.mk [digitChar (n / 10 % 10), digitChar (n % 10)]

/-- Zero-padded four-digit decimal rendering, exactly what the strftime code
Y produces on the bounded year field. -/
def pad4 (n : Nat) : String :=
  String.mk [digitChar (n / 1000 % 10), digitChar (n / 100 % 10),
    digitChar (n / 10 % 10), digitChar (n % 10)]

/-- Embedding of strftime with the format string of line 19 of
record_and_transcribe.py, rendering Y-m-d_HMS. -/
def strftimeTs (d : DateTime) : String :=
  pad4 d.year.val ++ "-" ++ pad2 d.month.val ++ "-" ++ pad2 d.day.val ++ "_" ++
    pad2 d.hour.val ++ pad2 d.minute.val ++ pad2 d.second.val

/-- The numpy buffer returned by sd.rec: requested frame count, sample rate,
channel count, and the sample data filled in from the input device. -/
structure AudioBuf where
  frames : Nat
  sampleRate : Nat
  channels : Nat
  data : Nat → Int

/-- Contents of a file on disk: either a wav buffer, as persisted by sf.write,
or plain text, as written by the transcript write. -/
inductive FileContent where
  | wav (a : AudioBuf)
  | text (s : String)

/-- The dictionary returned by MODEL.transcribe; the program reads its text
entry on line 22. -/
structure WhisperResult where
  text : String

/-- The filesystem: an association list from path to content. Reads return
the first match; writes replace in place or append a fresh entry. -/
abbrev FileSys := List (String × FileContent)

/-- Read the file at path p, none when absent. -/
def fsRead : FileSys → String → Option FileContent
  | [], _ => none
  | e :: rest, p => if e.1 = p then some e.2 else fsRead rest p

/-- Write content c at path p, truncating semantics of open with mode w. -/
def fsWrite : FileSys → String → FileContent → FileSys
  | [], p, c => [(p, c)]
  | e :: rest, p, c => if e.1 = p then (p, c) :: rest else e :: fsWrite rest p c

/-- Observable steps of the loop body, tagged with the iteration index. -/
inductive Event where
  | record (i : Nat)
  | transcribe (i : Nat)
  | write (i : Nat)
  | sleepSec (i : Nat) (secs : Nat)
deriving DecidableEq

/-- Process-visible state: the filesystem, the set of existing directories,
the console output, and a log of completed steps. -/
structure Sys where
  files : FileSys
  dirs : List String
  console : List String
  log : List Event

/-- Faults the external calls can raise: audio device failure, model failure,
disk failure, unreadable input file. -/
inductive Err where
  | device
  | model
  | disk
  | fileMissing
deriving DecidableEq

/-- Result of running a piece of the script: a normal state, or an uncaught
exception together with the state at the point it was raised. -/
inductive Outcome where
  | ok (st : Sys)
  | fail (e : Err) (st : Sys)

/-- Sequencing of Python statements: an uncaught exception skips everything
after it, since the script contains no exception handler. -/
def Outcome.bind : Outcome → (Sys → Outcome) → Outcome
  | .ok st, f => f st
  | .fail e st, _ => .fail e st

/-- The state carried by an outcome, normal or failed. -/
def Outcome.st : Outcome → Sys
  | .ok s => s
  | .fail _ s => s

/-- The external world: microphone samples per iteration, the loaded whisper
model, the wall clock read of each iteration, and injected faults for each
external call of each iteration. -/
structure Env where
  mic : Nat → Nat → Int
  transcribeFn : AudioBuf → WhisperResult
  now : Nat → DateTime
  recErr : Nat → Option Err
  transErr : Nat → Option Err
  writeErr : Nat → Option Err

/-- The OUT_DIR constant of line 7. -/
def OUT_DIR : String := "./output-transcripts"

/-- Module-level startup of line 8: os.makedirs with exist_ok set creates the
output directory only when absent and never fails. -/
def startup (st : Sys) : Sys :=
  { st with dirs := if OUT_DIR ∈ st.dirs then st.dirs else st.dirs ++ [OUT_DIR] }

/-- record_chunk of lines 10 to 15: print, request int(duration times fs)
frames at fs = 16000 on one channel from the default device, wait for the
recording, and persist the buffer to filename with sf.write. -/
def record_chunk (env : Env) (i : Nat) (st : Sys)
    (filename : String := "temp.wav") (duration : Nat := 60) : Outcome :=
  let st0 : Sys :=
    { st with console := st.console ++ ["Recording " ++ toString duration ++ "s..."] }
  match env.recErr i with
  | some e => .fail e st0
  | none =>
    let fs : Nat := 16000
    let audio : AudioBuf :=
      { frames := duration * fs, sampleRate := fs, channels := 1, data := env.mic i }
    .ok { st0 with files := fsWrite st0.files filename (.wav audio),
                   log := st0.log ++ [.record i] }

/-- transcribe_to_file of lines 17 to 23: run the model on the wav file, read
the clock, write the text entry of the result to a transcript file named from
the timestamp inside OUT_DIR, and print the saved path. -/
def transcribe_to_file (env : Env) (i : Nat) (st : Sys) (wav_path : String) : Outcome :=
  match fsRead st.files wav_path with
  | some (.wav a) =>
    match env.transErr i with
    | some e => .fail e st
    | none =>
      let result : WhisperResult := env.transcribeFn a
      let st1 : Sys := { st with log := st.log ++ [.transcribe i] }
      let ts : String := strftimeTs (env.now i)
      let out_path : String := OUT_DIR ++ "/voice_" ++ ts ++ ".txt"
      match env.writeErr i with
      | some e => .fail e st1
      | none =>
        .ok { st1 with files := fsWrite st1.files out_path (.text result.text),
                       console := st1.console ++ ["Saved transcript to " ++ out_path],
                       log := st1.log ++ [.write i] }
  | _ => .fail .fileMissing st

/-- One pass of the while True loop of lines 25 to 28: record_chunk with its
default arguments, transcribe_to_file on the literal temp.wav, then
time.sleep of 2 seconds. -/
def loopIter (env : Env) (i : Nat) (st : Sys) : Outcome :=
  Outcome.bind (record_chunk env i st) fun st1 =>
    Outcome.bind (transcribe_to_file env i st1 ("temp.wav")) fun st2 =>
      .ok { st2 with log := st2.log ++ [.sleepSec i 2] }

/-- n passes of the loop from a given state. -/
def run (env : Env) (st : Sys) : Nat → Outcome
  | 0 => .ok st
  | n + 1 => Outcome.bind (run env st n) (loopIter env n)

/-- The whole script: module-level startup, then n passes of the loop. -/
def runProgram (env : Env) (st : Sys) (n : Nat) : Outcome :=
  run env (startup st) n

/-- A state with no files, no directories, and no output. -/
def emptySys : Sys := { files := [], dirs := [], console := [], log := [] }

/-- The buffer iteration i records: 60 times 16000 frames filled from that
iteration of microphone input. -/
def audioOf (env : Env) (i : Nat) : AudioBuf :=
  { frames := 60 * 16000, sampleRate := 16000, channels := 1, data := env.mic i }

/-- The timestamp string iteration i puts into its transcript filename. -/
def tsOf (env : Env) (i : Nat) : String := strftimeTs (env.now i)

/-- The transcript path iteration i writes. -/
def tpath (env : Env) (i : Nat) : String := OUT_DIR ++ "/voice_" ++ tsOf env i ++ ".txt"

/-- The text iteration i writes: the model output on that iteration of audio. -/
def textOf (env : Env) (i : Nat) : String := (env.transcribeFn (audioOf env i)).text

/-- No external call of iteration i faults. -/
abbrev goodIter (env : Env) (i : Nat) : Prop :=
  env.recErr i = none ∧ env.transErr i = none ∧ env.writeErr i = none

/-- The state one fault-free pass of the loop leaves behind. -/
def afterIter (env : Env) (i : Nat) (st : Sys) : Sys :=
  { files := fsWrite (fsWrite st.files ("temp.wav") (.wav (audioOf env i)))
      (tpath env i) (.text (textOf env i)),
    dirs := st.dirs,
    console := st.console ++ ["Recording " ++ toString 60 ++ "s..."] ++
      ["Saved transcript to " ++ tpath env i],
    log := st.log ++ [.record i] ++ [.transcribe i] ++ [.write i] ++ [.sleepSec i 2] }

/-- The state after n fault-free passes. -/
def stateAfter (env : Env) (st : Sys) : Nat → Sys
  | 0 => st
  | n + 1 => afterIter env n (stateAfter env st n)

/-- Boolean prefix test on character lists. -/
def listStarts : List Char → List Char → Bool
  | [], _ => true
  | _ :: _, [] => false
  | a :: as, b :: bs => a = b && listStarts as bs

/-- Boolean prefix test on strings. -/
def strStarts (pre s : String) : Bool := listStarts pre.data s.data

/-- True when a path lies inside the output directory. -/
def inOutDir (p : String) : Bool := strStarts (OUT_DIR ++ "/") p

/-- Number of files inside the output directory. -/
def countTranscripts (f : FileSys) : Nat := (f.filter fun e => inOutDir e.1).length

/-- True when a file holds a wav buffer. -/
def isAudioFile : FileContent → Bool
  | .wav _ => true
  | .text _ => false

/-- Number of files holding wav buffers. -/
def countAudio (f : FileSys) : Nat := (f.filter fun e => isAudioFile e.2).length

/-- The transcript entries the first n iterations write, in order. -/
def transcriptsList (env : Env) : Nat → FileSys
  | 0 => []
  | n + 1 => transcriptsList env n ++ [(tpath env n, .text (textOf env n))]

/-- The step log the first n iterations produce, in order. -/
def traceOf : Nat → List Event
  | 0 => []
  | n + 1 => traceOf n ++ [.record n, .transcribe n, .write n, .sleepSec n 2]

/-- The console lines the first n iterations print, in order. -/
def consoleOf (env : Env) : Nat → List String
  | 0 => []
  | n + 1 => consoleOf env n ++
      ["Recording " ++ toString 60 ++ "s...", "Saved transcript to " ++ tpath env n]

/-- A string shaped like the timestamp format of line 19: four digits, dash,
two digits, dash, two digits, underscore, three two-digit groups. -/
def tsShape (s : String) : Prop :=
  ∃ y mo dd hh mi ss : List Char,
    s.data = y ++ ['-'] ++ mo ++ ['-'] ++ dd ++ ['_'] ++ hh ++ mi ++ ss ∧
    y.length = 4 ∧ mo.length = 2 ∧ dd.length = 2 ∧ hh.length = 2 ∧
    mi.length = 2 ∧ ss.length = 2 ∧
    ∀ c : Char, c ∈ y ++ mo ++ dd ++ hh ++ mi ++ ss → c.isDigit = true

/-- A concrete fault-free environment: silent microphone, a model answering a
fixed word, and a clock advancing one second per iteration. -/
def envW : Env :=
  { mic := fun _ _ => 0,
    transcribeFn := fun _ => { text := "hello" },
    now := fun i =>
      { year := 2026, month := 10, day := 12, hour := 9, minute := 30,
        second := ⟨i % 60, Nat.mod_lt i (by omega)⟩ },
    recErr := fun _ => none,
    transErr := fun _ => none,
    writeErr := fun _ => none }

/-- envW with a device fault injected at iteration 1. -/
def envF : Env :=
  { envW with recErr := fun i => if i = 1 then some .device else none }

/-- envW with a model that returns empty text. -/
def envE : Env :=
  { envW with transcribeFn := fun _ => { text := "" } }

/-- envW with a stopped clock, so every iteration stamps the same second. -/
def envC : Env :=
  { envW with now := fun _ =>
      { year := 2026, month := 10, day := 12, hour := 9, minute := 30, second := 0 } }

/-- A state already holding one recorded chunk at the temporary path. -/
def stW : Sys :=
  { emptySys with files := [(("temp.wav"), .wav (audioOf envW 0))] }

/-- The state at the device fault of envF in iteration 1: the recording print
has happened, nothing else of that iteration has. -/
def stF : Sys :=
  { stateAfter envF (startup emptySys) 1 with
    console := (stateAfter envF (startup emptySys) 1).console ++
      ["Recording " ++ toString 60 ++ "s..."] }

theorem fsRead_fsWrite_self (f : FileSys) (p : String) (c : FileContent) :
    fsRead (fsWrite f p c) p = some c := by
  induction f with
  | nil => simp [fsWrite, fsRead]
  | cons e rest ih =>
    by_cases h : e.1 = p
    · simp [fsWrite, h, fsRead]
    · simp [fsWrite, h, fsRead, ih]

theorem fsRead_fsWrite_ne (f : FileSys) (p q : String) (c : FileContent)
    (h : q ≠ p) : fsRead (fsWrite f p c) q = fsRead f q := by
  induction f with
  | nil => simp [fsWrite, fsRead, Ne.symm h]
  | cons e rest ih =>
    by_cases h1 : e.1 = p
    · have hq : ¬(p = q) := fun hh => h hh.symm
      have hq2 : ¬(e.1 = q) := by rw [h1]; exact hq
      simp [fsWrite, h1, fsRead, hq, hq2]
    · simp only [fsWrite, if_neg h1]
      by_cases h2 : e.1 = q
      · simp [fsRead, h2]
      · simp [fsRead, h2, ih]

theorem fsWrite_of_forall_ne (f : FileSys) (p : String) (c : FileContent)
    (h : ∀ e ∈ f, e.1 ≠ p) : fsWrite f p c = f ++ [(p, c)] := by
  induction f with
  | nil => simp [fsWrite]
  | cons e rest ih =>
    have he : e.1 ≠ p := h e (by simp)
    simp [fsWrite, he, ih fun x hx => h x (by simp [hx])]

theorem fsRead_eq_none (f : FileSys) (p : String) (h : ∀ e ∈ f, e.1 ≠ p) :
    fsRead f p = none := by
  induction f with
  | nil => rfl
  | cons e rest ih =>
    simp [fsRead, h e (by simp), ih fun x hx => h x (by simp [hx])]

theorem fsRead_append_left (f1 f2 : FileSys) (p : String) (c : FileContent)
    (h : fsRead f1 p = some c) : fsRead (f1 ++ f2) p = some c := by
  induction f1 with
  | nil => simp [fsRead] at h
  | cons e rest ih =>
    by_cases h1 : e.1 = p
    · simp [fsRead, h1] at h ⊢; exact h
    · simp [fsRead, h1] at h ⊢; exact ih h

theorem fsRead_append_right (f1 f2 : FileSys) (p : String)
    (h : fsRead f1 p = none) : fsRead (f1 ++ f2) p = fsRead f2 p := by
  induction f1 with
  | nil => rfl
  | cons e rest ih =>
    by_cases h1 : e.1 = p
    · simp [fsRead, h1] at h
    · simp [fsRead, h1] at h ⊢; exact ih h

theorem mem_fsWrite (f : FileSys) (p : String) (c : FileContent)
    (e : String × FileContent) (h : e ∈ fsWrite f p c) : e ∈ f ∨ e = (p, c) := by
  induction f with
  | nil => simp [fsWrite] at h; simp [h]
  | cons x rest ih =>
    by_cases h1 : x.1 = p
    · simp [fsWrite, h1] at h
      rcases h with h | h
      · simp [h]
      · simp [h]
    · simp [fsWrite, h1] at h
      rcases h with h | h
      · simp [h]
      · rcases ih h with h2 | h2
        · simp [h2]
        · simp [h2]

theorem listStarts_append (l m : List Char) : listStarts l (l ++ m) = true := by
  induction l with
  | nil => rfl
  | cons a as ih => simp [listStarts, ih]

theorem strStarts_of_data (pre s : String)
    (h : ∃ rest, s.data = pre.data ++ rest) : strStarts pre s = true := by
  obtain ⟨rest, hr⟩ := h
  unfold strStarts
  rw [hr]
  exact listStarts_append _ _

theorem stringDataInj (s t : String) (h : s.data = t.data) : s = t := by
  cases s; cases t; exact congrArg String.mk h

theorem inOutDir_tpath (env : Env) (i : Nat) : inOutDir (tpath env i) = true := by
  apply strStarts_of_data
  refine ⟨("voice_" : String).data ++ (tsOf env i).data ++ (".txt" : String).data, ?_⟩
  have h1 : ("/voice_" : String).data = ("/" : String).data ++ ("voice_" : String).data := rfl
  simp [tpath, String.data_append, h1, List.append_assoc]

theorem tpath_ne_temp (env : Env) (i : Nat) : tpath env i ≠ ("temp.wav") := by
  intro h
  have h2 : inOutDir (tpath env i) = true := inOutDir_tpath env i
  rw [h] at h2
  exact absurd h2 (by decide)

theorem tpath_inj (env : Env) (i j : Nat) (h : tsOf env i ≠ tsOf env j) :
    tpath env i ≠ tpath env j := by
  intro he
  apply h
  have hd : (tpath env i).data = (tpath env j).data := congrArg String.data he
  simp only [tpath, String.data_append] at hd
  have hd2 := List.append_cancel_right hd
  have hd3 := List.append_cancel_left hd2
  exact stringDataInj _ _ hd3

theorem loopIter_eq (env : Env) (i : Nat) (st : Sys) (h : goodIter env i) :
    loopIter env i st = .ok (afterIter env i st) := by
  obtain ⟨h1, h2, h3⟩ := h
  unfold loopIter record_chunk transcribe_to_file afterIter
  simp only [h1, h2, h3, Outcome.bind, fsRead_fsWrite_self]
  rfl

theorem run_eq_stateAfter (env : Env) (st : Sys) (n : Nat)
    (hgood : ∀ i, i < n → goodIter env i) :
    run env st n = .ok (stateAfter env st n) := by
  induction n with
  | zero => rfl
  | succ n ih =>
    have hg : ∀ i, i < n → goodIter env i :=
      fun i hi => hgood i (Nat.lt_succ_of_lt hi)
    rw [run, ih hg]
    simp only [Outcome.bind]
    rw [loopIter_eq env n _ (hgood n (Nat.lt_succ_self n))]
    rfl

theorem mem_transcriptsList (env : Env) (n : Nat) (e : String × FileContent)
    (h : e ∈ transcriptsList env n) :
    ∃ i, i < n ∧ e = (tpath env i, FileContent.text (textOf env i)) := by
  induction n with
  | zero => simp [transcriptsList] at h
  | succ n ih =>
    simp only [transcriptsList, List.mem_append, List.mem_singleton] at h
    rcases h with h | h
    · obtain ⟨i, hi, he⟩ := ih h
      exact ⟨i, Nat.lt_succ_of_lt hi, he⟩
    · exact ⟨n, Nat.lt_succ_self n, h⟩

theorem length_transcriptsList (env : Env) (n : Nat) :
    (transcriptsList env n).length = n := by
  induction n with
  | zero => rfl
  | succ n ih => simp [transcriptsList, ih]

theorem filter_true_of_all (p : String × FileContent → Bool) (l : FileSys)
    (h : ∀ e ∈ l, p e = true) : l.filter p = l := by
  induction l with
  | nil => rfl
  | cons e rest ih =>
    simp [List.filter, h e (by simp), ih fun x hx => h x (by simp [hx])]

theorem filter_false_of_all (p : String × FileContent → Bool) (l : FileSys)
    (h : ∀ e ∈ l, p e = false) : l.filter p = [] := by
  induction l with
  | nil => rfl
  | cons e rest ih =>
    simp [List.filter, h e (by simp), ih fun x hx => h x (by simp [hx])]

theorem fsRead_transcriptsList (env : Env) (n i : Nat) (hi : i < n)
    (hdist : ∀ a, a < n → ∀ b, b < n → a ≠ b → tsOf env a ≠ tsOf env b) :
    fsRead (transcriptsList env n) (tpath env i) = some (.text (textOf env i)) := by
  induction n with
  | zero => omega
  | succ n ih =>
    have hdist2 : ∀ a, a < n → ∀ b, b < n → a ≠ b → tsOf env a ≠ tsOf env b :=
      fun a ha b hb => hdist a (Nat.lt_succ_of_lt ha) b (Nat.lt_succ_of_lt hb)
    rcases Nat.lt_succ_iff_lt_or_eq.mp hi with h | h
    · exact fsRead_append_left _ _ _ _ (ih h hdist2)
    · rw [h]
      rw [transcriptsList]
      rw [fsRead_append_right]
      · simp [fsRead]
      · apply fsRead_eq_none
        intro e he
        obtain ⟨j, hj, hej⟩ := mem_transcriptsList env n e he
        rw [hej]
        exact tpath_inj env j n
          (hdist j (Nat.lt_succ_of_lt hj) n (Nat.lt_succ_self n) (Nat.ne_of_lt hj))

theorem files_stateAfter (env : Env) (n : Nat) (hn : 0 < n)
    (hdist : ∀ a, a < n → ∀ b, b < n → a ≠ b → tsOf env a ≠ tsOf env b) :
    (stateAfter env (startup emptySys) n).files =
      (("temp.wav"), FileContent.wav (audioOf env (n - 1))) :: transcriptsList env n := by
  induction n with
  | zero => omega
  | succ n ih =>
    by_cases hn0 : n = 0
    · subst hn0
      have ht : ¬(("temp.wav" : String) = tpath env 0) :=
        fun hh => tpath_ne_temp env 0 hh.symm
      simp [stateAfter, afterIter, startup, emptySys, fsWrite, transcriptsList, ht]
    · have hdist2 : ∀ a, a < n → ∀ b, b < n → a ≠ b → tsOf env a ≠ tsOf env b :=
        fun a ha b hb => hdist a (Nat.lt_succ_of_lt ha) b (Nat.lt_succ_of_lt hb)
      have ihf := ih (Nat.pos_of_ne_zero hn0) hdist2
      show (afterIter env n (stateAfter env (startup emptySys) n)).files = _
      rw [afterIter]
      simp only [ihf]
      have ht : ¬(("temp.wav" : String) = tpath env n) :=
        fun hh => tpath_ne_temp env n hh.symm
      rw [show fsWrite ((("temp.wav"), FileContent.wav (audioOf env (n - 1))) ::
            transcriptsList env n) ("temp.wav") (.wav (audioOf env n)) =
          (("temp.wav"), FileContent.wav (audioOf env n)) :: transcriptsList env n by
        simp [fsWrite]]
      rw [show fsWrite ((("temp.wav"), FileContent.wav (audioOf env n)) ::
            transcriptsList env n) (tpath env n) (.text (textOf env n)) =
          (("temp.wav"), FileContent.wav (audioOf env n)) ::
            fsWrite (transcriptsList env n) (tpath env n) (.text (textOf env n)) by
        simp [fsWrite, ht]]
      rw [fsWrite_of_forall_ne]
      · rfl
      · intro e he
        obtain ⟨j, hj, hej⟩ := mem_transcriptsList env n e he
        rw [hej]
        exact tpath_inj env j n
          (hdist j (Nat.lt_succ_of_lt hj) n (Nat.lt_succ_self n) (Nat.ne_of_lt hj))

theorem log_stateAfter (env : Env) (s0 : Sys) (n : Nat) :
    (stateAfter env s0 n).log = s0.log ++ traceOf n := by
  induction n with
  | zero => simp [stateAfter, traceOf]
  | succ n ih => simp [stateAfter, afterIter, traceOf, ih]

theorem dirs_stateAfter (env : Env) (s0 : Sys) (n : Nat) :
    (stateAfter env s0 n).dirs = s0.dirs := by
  induction n with
  | zero => rfl
  | succ n ih => simp [stateAfter, afterIter, ih]

theorem console_stateAfter (env : Env) (s0 : Sys) (n : Nat) :
    (stateAfter env s0 n).console = s0.console ++ consoleOf env n := by
  induction n with
  | zero => simp [stateAfter, consoleOf]
  | succ n ih => simp [stateAfter, afterIter, consoleOf, ih]

theorem digitChar_isDigit : ∀ m, m < 10 → (digitChar m).isDigit = true := by decide

theorem pad2_digits (n : Nat) : ∀ c ∈ (pad2 n).data, c.isDigit = true := by
  intro c hc
  simp only [pad2, List.mem_cons, List.not_mem_nil, or_false] at hc
  rcases hc with h | h <;>
    (rw [h]; exact digitChar_isDigit _ (Nat.mod_lt _ (by omega)))

theorem pad4_digits (n : Nat) : ∀ c ∈ (pad4 n).data, c.isDigit = true := by
  intro c hc
  simp only [pad4, List.mem_cons, List.not_mem_nil, or_false] at hc
  rcases hc with h | h | h | h <;>
    (rw [h]; exact digitChar_isDigit _ (Nat.mod_lt _ (by omega)))

theorem tsShape_strftimeTs (d : DateTime) : tsShape (strftimeTs d) := by
  refine ⟨(pad4 d.year.val).data, (pad2 d.month.val).data, (pad2 d.day.val).data,
    (pad2 d.hour.val).data, (pad2 d.minute.val).data, (pad2 d.second.val).data,
    ?_, rfl, rfl, rfl, rfl, rfl, rfl, ?_⟩
  · have h1 : ("-" : String).data = ['-'] := rfl
    have h2 : ("_" : String).data = ['_'] := rfl
    simp [strftimeTs, String.data_append, h1, h2, List.append_assoc]
  · intro c hc
    simp only [List.mem_append] at hc
    rcases hc with ((((h | h) | h) | h) | h) | h
    · exact pad4_digits _ c h
    · exact pad2_digits _ c h
    · exact pad2_digits _ c h
    · exact pad2_digits _ c h
    · exact pad2_digits _ c h
    · exact pad2_digits _ c h

theorem files_shape_stateAfter (env : Env) (n : Nat) (hn : 0 < n) :
    ∃ T : FileSys, (stateAfter env (startup emptySys) n).files =
      (("temp.wav"), FileContent.wav (audioOf env (n - 1))) :: T ∧
      ∀ e ∈ T, isAudioFile e.2 = false := by
  induction n with
  | zero => omega
  | succ n ih =>
    by_cases hn0 : n = 0
    · subst hn0
      have ht : ¬(("temp.wav" : String) = tpath env 0) :=
        fun hh => tpath_ne_temp env 0 hh.symm
      refine ⟨[(tpath env 0, .text (textOf env 0))], ?_, ?_⟩
      · simp [stateAfter, afterIter, startup, emptySys, fsWrite, ht]
      · simp [isAudioFile]
    · obtain ⟨T, hT, hTa⟩ := ih (Nat.pos_of_ne_zero hn0)
      have ht : ¬(("temp.wav" : String) = tpath env n) :=
        fun hh => tpath_ne_temp env n hh.symm
      refine ⟨fsWrite T (tpath env n) (.text (textOf env n)), ?_, ?_⟩
      · show (afterIter env n (stateAfter env (startup emptySys) n)).files = _
        rw [afterIter]
        simp only [hT]
        simp [fsWrite, ht]
      · intro e he
        rcases mem_fsWrite T (tpath env n) (.text (textOf env n)) e he with h | h
        · exact hTa e h
        · rw [h]; rfl


theorem record_chunk_dirs (env : Env) (i : Nat) (st : Sys) (fn : String) (du : Nat) :
    (record_chunk env i st fn du).st.dirs = st.dirs := by
  unfold record_chunk
  cases env.recErr i <;> rfl

theorem transcribe_to_file_dirs (env : Env) (i : Nat) (st : Sys) (wp : String) :
    (transcribe_to_file env i st wp).st.dirs = st.dirs := by
  unfold transcribe_to_file
  cases hr : fsRead st.files wp with
  | none => rfl
  | some c =>
    cases c with
    | wav a => cases env.transErr i <;> cases env.writeErr i <;> rfl
    | text s => rfl

theorem loopIter_dirs (env : Env) (i : Nat) (st : Sys) :
    (loopIter env i st).st.dirs = st.dirs := by
  unfold loopIter
  cases hrec : record_chunk env i st with
  | ok st1 =>
    have h1 : st1.dirs = st.dirs := by
      have hd := record_chunk_dirs env i st ("temp.wav") 60
      rw [hrec] at hd
      exact hd
    simp only [Outcome.bind]
    cases htr : transcribe_to_file env i st1 ("temp.wav") with
    | ok st2 =>
      have h2 : st2.dirs = st1.dirs := by
        have hd := transcribe_to_file_dirs env i st1 ("temp.wav")
        rw [htr] at hd
        exact hd
      simp only [Outcome.bind, Outcome.st]
      rw [h2, h1]
    | fail e st2 =>
      have h2 : st2.dirs = st1.dirs := by
        have hd := transcribe_to_file_dirs env i st1 ("temp.wav")
        rw [htr] at hd
        exact hd
      simp only [Outcome.bind, Outcome.st]
      rw [h2, h1]
  | fail e st1 =>
    have h1 : st1.dirs = st.dirs := by
      have hd := record_chunk_dirs env i st ("temp.wav") 60
      rw [hrec] at hd
      exact hd
    simp only [Outcome.bind, Outcome.st]
    exact h1

theorem run_dirs (env : Env) (s0 : Sys) (n : Nat) :
    (run env s0 n).st.dirs = s0.dirs := by
  induction n with
  | zero => rfl
  | succ n ih =>
    rw [run]
    cases hr : run env s0 n with
    | ok st1 =>
      rw [hr] at ih
      have h2 := loopIter_dirs env n st1
      simp only [Outcome.bind]
      rw [h2]
      exact ih
    | fail e st1 =>
      rw [hr] at ih
      simp only [Outcome.bind, Outcome.st]
      exact ih

/-- C1: with every external call fault-free and the write-time timestamps of
the N iterations pairwise distinct, running N passes of the loop succeeds and
leaves exactly N files in the output directory; the file of iteration i holds
exactly the text the transcription step returned in iteration i. -/
theorem C1_transcript_files (env : Env) (n : Nat)
    (hgood : ∀ i, i < n → goodIter env i)
    (hdist : ∀ a, a < n → ∀ b, b < n → a ≠ b → tsOf env a ≠ tsOf env b) :
    ∃ st, runProgram env emptySys n = .ok st ∧
      countTranscripts st.files = n ∧
      ∀ i, i < n → fsRead st.files (tpath env i) = some (.text (textOf env i)) := by
  refine ⟨stateAfter env (startup emptySys) n,
    run_eq_stateAfter env (startup emptySys) n hgood, ?_, ?_⟩
  · by_cases hn : n = 0
    · subst hn; rfl
    · rw [files_stateAfter env n (Nat.pos_of_ne_zero hn) hdist]
      have hf : (transcriptsList env n).filter (fun e => inOutDir e.1) =
          transcriptsList env n := by
        apply filter_true_of_all
        intro e he
        obtain ⟨j, hj, hej⟩ := mem_transcriptsList env n e he
        rw [hej]
        exact inOutDir_tpath env j
      have hh : inOutDir ("temp.wav") = false := by decide
      simp [countTranscripts, List.filter_cons, hh, hf, length_transcriptsList]
  · intro i hi
    have hn : 0 < n := Nat.lt_of_le_of_lt (Nat.zero_le i) hi
    rw [files_stateAfter env n hn hdist]
    simp only [fsRead]
    rw [if_neg (fun hh => tpath_ne_temp env i (Eq.symm hh))]
    exact fsRead_transcriptsList env n i hi hdist

/-- C2: one fault-free record_chunk call with duration D persists to its
target file exactly one buffer, and that buffer has D times 16000 frames, a
16000 Hz sample rate, and one channel. -/
theorem C2_record_buffer (env : Env) (i : Nat) (st : Sys) (filename : String)
    (D : Nat) (h : env.recErr i = none) :
    ∃ st2 a, record_chunk env i st filename D = .ok st2 ∧
      fsRead st2.files filename = some (.wav a) ∧
      a.frames = D * 16000 ∧ a.sampleRate = 16000 ∧ a.channels = 1 := by
  refine ⟨{ st with
      console := st.console ++ ["Recording " ++ toString D ++ "s..."],
      files := fsWrite st.files filename
        (.wav { frames := D * 16000, sampleRate := 16000, channels := 1,
                data := env.mic i }),
      log := st.log ++ [.record i] },
    { frames := D * 16000, sampleRate := 16000, channels := 1, data := env.mic i },
    ?_, ?_, rfl, rfl, rfl⟩
  · unfold record_chunk
    rw [h]
  · exact fsRead_fsWrite_self _ _ _

/-- C3: a fault-free transcribe_to_file call adds exactly one file, placed
inside the output directory ./output-transcripts/ under the name
voice_<timestamp>.txt, where the timestamp is the clock value read during the
call, rendered as four year digits, dash, two month digits, dash, two day
digits, underscore, and two digits each for hour, minute and second. -/
theorem C3_transcript_naming (env : Env) (i : Nat) (st : Sys) (wav_path : String)
    (a : AudioBuf) (hread : fsRead st.files wav_path = some (.wav a))
    (h2 : env.transErr i = none) (h3 : env.writeErr i = none) :
    ∃ st2, transcribe_to_file env i st wav_path = .ok st2 ∧
      st2.files = fsWrite st.files (tpath env i) (.text (env.transcribeFn a).text) ∧
      tpath env i = OUT_DIR ++ "/voice_" ++ strftimeTs (env.now i) ++ ".txt" ∧
      inOutDir (tpath env i) = true ∧
      tsShape (strftimeTs (env.now i)) := by
  refine ⟨{ st with
      files := fsWrite st.files (tpath env i) (.text (env.transcribeFn a).text),
      console := st.console ++ ["Saved transcript to " ++ tpath env i],
      log := st.log ++ [.transcribe i] ++ [.write i] },
    ?_, rfl, rfl, inOutDir_tpath env i, tsShape_strftimeTs (env.now i)⟩
  unfold transcribe_to_file
  rw [hread, h2, h3]
  rfl

/-- C4: whatever text the model returns, the empty string included, the
transcript file is created and holds that text verbatim; transcribe_to_file
has no branch that skips the write. -/
theorem C4_no_skip (env : Env) (i : Nat) (st : Sys) (wav_path : String)
    (a : AudioBuf) (t : String)
    (hread : fsRead st.files wav_path = some (.wav a))
    (h2 : env.transErr i = none) (h3 : env.writeErr i = none)
    (ht : (env.transcribeFn a).text = t) :
    ∃ st2, transcribe_to_file env i st wav_path = .ok st2 ∧
      fsRead st2.files (tpath env i) = some (.text t) := by
  subst ht
  refine ⟨{ st with
      files := fsWrite st.files (tpath env i) (.text (env.transcribeFn a).text),
      console := st.console ++ ["Saved transcript to " ++ tpath env i],
      log := st.log ++ [.transcribe i] ++ [.write i] },
    ?_, ?_⟩
  · unfold transcribe_to_file
    rw [hread, h2, h3]
    rfl
  · exact fsRead_fsWrite_self _ _ _

/-- C5: the loop never terminates after a successful pass: the run of m plus
one passes is by definition the run of m passes continued with one more
iteration, and with faults absent every pass completes, the log after N
passes being exactly record, transcribe, write and a 2 second sleep for each
iteration in order, every step of an earlier iteration before every step of
a later one. -/
theorem C5_loop_forever (env : Env) (n : Nat)
    (hgood : ∀ i, i < n → goodIter env i) :
    (∀ st0 m, run env st0 (m + 1) = Outcome.bind (run env st0 m) (loopIter env m)) ∧
    ∃ st, runProgram env emptySys n = .ok st ∧ st.log = traceOf n := by
  refine ⟨fun st0 m => rfl, stateAfter env (startup emptySys) n,
    run_eq_stateAfter env (startup emptySys) n hgood, ?_⟩
  have hl := log_stateAfter env (startup emptySys) n
  simpa [startup, emptySys] using hl

/-- C6: when two consecutive iterations stamp the same second, the program
still succeeds with exactly the usual console lines, both iterations target
the same path, exactly one transcript file exists afterwards, and it holds
the text of the later iteration: the second write silently replaced the
first, with no append and no error. -/
theorem C6_collision_overwrites (env : Env)
    (hgood : ∀ i, i < 2 → goodIter env i)
    (hts : tsOf env 0 = tsOf env 1) :
    ∃ st, runProgram env emptySys 2 = .ok st ∧
      tpath env 0 = tpath env 1 ∧
      countTranscripts st.files = 1 ∧
      fsRead st.files (tpath env 1) = some (.text (textOf env 1)) ∧
      st.console = ["Recording " ++ toString 60 ++ "s...",
        "Saved transcript to " ++ tpath env 0,
        "Recording " ++ toString 60 ++ "s...",
        "Saved transcript to " ++ tpath env 1] := by
  have hp : tpath env 0 = tpath env 1 := by unfold tpath; rw [hts]
  have ht0 : ¬(("temp.wav" : String) = tpath env 0) :=
    fun hh => tpath_ne_temp env 0 (Eq.symm hh)
  have ht1 : ¬(("temp.wav" : String) = tpath env 1) :=
    fun hh => tpath_ne_temp env 1 (Eq.symm hh)
  have hfiles : (stateAfter env (startup emptySys) 2).files =
      [(("temp.wav"), .wav (audioOf env 1)), (tpath env 1, .text (textOf env 1))] := by
    show (afterIter env 1 (afterIter env 0 (startup emptySys))).files = _
    simp [afterIter, startup, emptySys, fsWrite, ht0, ht1, hp]
  refine ⟨stateAfter env (startup emptySys) 2,
    run_eq_stateAfter env (startup emptySys) 2 hgood, hp, ?_, ?_, ?_⟩
  · rw [hfiles]
    have hh : inOutDir ("temp.wav") = false := by decide
    simp [countTranscripts, List.filter_cons, hh, inOutDir_tpath env 1]
  · rw [hfiles]
    simp [fsRead, ht1]
  · have hc := console_stateAfter env (startup emptySys) 2
    rw [hc]
    simp [startup, emptySys, consoleOf, hp]

/-- C7: faults are never caught: if the first i iterations are fault-free and
iteration i raises error e, every run of more than i passes ends as that same
failure with the same error and the very state at the raise point, so no
step retries, nothing handles the error, and no cleanup runs. -/
theorem C7_fault_terminates (env : Env) (st0 : Sys) (i : Nat) (e : Err) (stf : Sys)
    (hgood : ∀ j, j < i → goodIter env j)
    (hfail : loopIter env i (stateAfter env (startup st0) i) = .fail e stf) :
    ∀ m, i < m → runProgram env st0 m = .fail e stf := by
  have hrun : run env (startup st0) i = .ok (stateAfter env (startup st0) i) :=
    run_eq_stateAfter env (startup st0) i hgood
  intro m hm
  induction m with
  | zero => omega
  | succ m ih =>
    rcases Nat.lt_succ_iff_lt_or_eq.mp hm with h | h
    · have hh : runProgram env st0 (m + 1) =
          Outcome.bind (runProgram env st0 m) (loopIter env m) := rfl
      rw [hh, ih h]
      rfl
    · subst h
      have hh : runProgram env st0 (i + 1) =
          Outcome.bind (run env (startup st0) i) (loopIter env i) := rfl
      rw [hh, hrun]
      simpa [Outcome.bind] using hfail

/-- C8: the output directory is created exactly once, at startup, and only if
absent: when it already exists startup changes nothing and does not fail,
when it is absent startup appends exactly it and touches no file, afterwards
it exists, and no number of loop passes changes the directory set again. -/
theorem C8_outdir_creation (st0 : Sys) (env : Env) :
    (OUT_DIR ∈ st0.dirs → startup st0 = st0) ∧
    (OUT_DIR ∉ st0.dirs → (startup st0).dirs = st0.dirs ++ [OUT_DIR] ∧
      (startup st0).files = st0.files) ∧
    OUT_DIR ∈ (startup st0).dirs ∧
    ∀ n, (run env (startup st0) n).st.dirs = (startup st0).dirs := by
  refine ⟨?_, ?_, ?_, fun n => run_dirs env (startup st0) n⟩
  · intro h
    simp [startup, h]
  · intro h
    simp [startup, h]
  · by_cases h : OUT_DIR ∈ st0.dirs <;> simp [startup, h]

/-- C9: every pass records over the same fixed temporary path: after any
number of fault-free passes at most one file holds audio; after at least one
pass exactly one does, namely temp.wav, holding exactly the chunk of the
most recent pass; after zero passes none does. -/
theorem C9_temp_file (env : Env) (n : Nat)
    (hgood : ∀ i, i < n → goodIter env i) :
    ∃ st, runProgram env emptySys n = .ok st ∧
      countAudio st.files ≤ 1 ∧
      (0 < n → countAudio st.files = 1 ∧
        fsRead st.files ("temp.wav") = some (.wav (audioOf env (n - 1)))) ∧
      (n = 0 → countAudio st.files = 0) := by
  refine ⟨stateAfter env (startup emptySys) n,
    run_eq_stateAfter env (startup emptySys) n hgood, ?_, ?_, ?_⟩
  all_goals by_cases hn : 0 < n
  case pos =>
    obtain ⟨T, hT, hTa⟩ := files_shape_stateAfter env n hn
    have hcount : countAudio (stateAfter env (startup emptySys) n).files = 1 := by
      rw [hT]
      have hfT := filter_false_of_all (fun e => isAudioFile e.2) T hTa
      simp [countAudio, List.filter_cons, isAudioFile, hfT]
      intro a b hab
      exact hTa (a, b) hab
    exact Nat.le_of_eq hcount
  case neg =>
    have hn0 : n = 0 := by omega
    subst hn0
    exact Nat.zero_le 1
  case pos =>
    obtain ⟨T, hT, hTa⟩ := files_shape_stateAfter env n hn
    intro _
    constructor
    · rw [hT]
      have hfT := filter_false_of_all (fun e => isAudioFile e.2) T hTa
      simp [countAudio, List.filter_cons, isAudioFile, hfT]
      intro a b hab
      exact hTa (a, b) hab
    · rw [hT]
      simp [fsRead]
  case neg =>
    intro h0
    omega
  case pos =>
    intro h0
    omega
  case neg =>
    have hn0 : n = 0 := by omega
    subst hn0
    intro _
    rfl

/-- C10: the default filename of record_chunk and the literal the loop hands
to transcribe_to_file are the same path, so a fault-free pass transcribes
exactly the chunk it just recorded: afterwards temp.wav holds the chunk of
this pass and the transcript file holds the model output on that very
chunk. -/
theorem C10_same_path (env : Env) (i : Nat) (st : Sys) (h : goodIter env i) :
    record_chunk env i st = record_chunk env i st ("temp.wav") 60 ∧
    ∃ st2, loopIter env i st = .ok st2 ∧
      fsRead st2.files ("temp.wav") = some (.wav (audioOf env i)) ∧
      fsRead st2.files (tpath env i) =
        some (.text ((env.transcribeFn (audioOf env i)).text)) := by
  refine ⟨rfl, afterIter env i st, loopIter_eq env i st h, ?_, ?_⟩
  · show fsRead (fsWrite (fsWrite st.files ("temp.wav") (.wav (audioOf env i)))
      (tpath env i) (.text (textOf env i))) ("temp.wav") = _
    rw [fsRead_fsWrite_ne _ _ _ _ (fun hh => tpath_ne_temp env i (Eq.symm hh))]
    exact fsRead_fsWrite_self _ _ _
  · exact fsRead_fsWrite_self _ _ _

/-- Witness for C1 at a concrete environment and two iterations. -/
theorem C1_witness :
    (∀ i, i < 2 → goodIter envW i) ∧
    (∀ a, a < 2 → ∀ b, b < 2 → a ≠ b → tsOf envW a ≠ tsOf envW b) ∧
    ∃ st, runProgram envW emptySys 2 = .ok st ∧
      countTranscripts st.files = 2 ∧
      ∀ i, i < 2 → fsRead st.files (tpath envW i) = some (.text (textOf envW i)) :=
  ⟨by decide, by decide, C1_transcript_files envW 2 (by decide) (by decide)⟩

/-- Witness for C2 at a concrete environment, state and duration. -/
theorem C2_witness :
    envW.recErr 0 = none ∧
    ∃ st2 a, record_chunk envW 0 emptySys ("temp.wav") 60 = .ok st2 ∧
      fsRead st2.files ("temp.wav") = some (.wav a) ∧
      a.frames = 60 * 16000 ∧ a.sampleRate = 16000 ∧ a.channels = 1 :=
  ⟨rfl, C2_record_buffer envW 0 emptySys ("temp.wav") 60 rfl⟩

/-- Witness for C3 at a concrete environment and a state holding a chunk. -/
theorem C3_witness :
    fsRead stW.files ("temp.wav") = some (.wav (audioOf envW 0)) ∧
    envW.transErr 0 = none ∧ envW.writeErr 0 = none ∧
    ∃ st2, transcribe_to_file envW 0 stW ("temp.wav") = .ok st2 ∧
      st2.files = fsWrite stW.files (tpath envW 0)
        (.text (envW.transcribeFn (audioOf envW 0)).text) ∧
      tpath envW 0 = OUT_DIR ++ "/voice_" ++ strftimeTs (envW.now 0) ++ ".txt" ∧
      inOutDir (tpath envW 0) = true ∧
      tsShape (strftimeTs (envW.now 0)) :=
  ⟨rfl, rfl, rfl,
    C3_transcript_naming envW 0 stW ("temp.wav") (audioOf envW 0) rfl rfl rfl⟩

/-- Witness for C4 with a model that returns the empty string. -/
theorem C4_witness :
    fsRead stW.files ("temp.wav") = some (.wav (audioOf envE 0)) ∧
    (envE.transcribeFn (audioOf envE 0)).text = "" ∧
    ∃ st2, transcribe_to_file envE 0 stW ("temp.wav") = .ok st2 ∧
      fsRead st2.files (tpath envE 0) = some (.text "") :=
  ⟨rfl, rfl,
    C4_no_skip envE 0 stW ("temp.wav") (audioOf envE 0) "" rfl rfl rfl rfl⟩

/-- Witness for C5 at a concrete environment and two iterations. -/
theorem C5_witness :
    (∀ i, i < 2 → goodIter envW i) ∧
    ∃ st, runProgram envW emptySys 2 = .ok st ∧ st.log = traceOf 2 :=
  ⟨by decide, (C5_loop_forever envW 2 (by decide)).2⟩

/-- Witness for C6 at a concrete environment with a stopped clock. -/
theorem C6_witness :
    (∀ i, i < 2 → goodIter envC i) ∧ tsOf envC 0 = tsOf envC 1 ∧
    ∃ st, runProgram envC emptySys 2 = .ok st ∧
      tpath envC 0 = tpath envC 1 ∧
      countTranscripts st.files = 1 ∧
      fsRead st.files (tpath envC 1) = some (.text (textOf envC 1)) ∧
      st.console = ["Recording " ++ toString 60 ++ "s...",
        "Saved transcript to " ++ tpath envC 0,
        "Recording " ++ toString 60 ++ "s...",
        "Saved transcript to " ++ tpath envC 1] :=
  ⟨by decide, rfl, C6_collision_overwrites envC (by decide) rfl⟩

/-- Witness for C7 at a concrete environment with a device fault in the
second iteration. -/
theorem C7_witness :
    (∀ j, j < 1 → goodIter envF j) ∧
    ∃ stf, loopIter envF 1 (stateAfter envF (startup emptySys) 1) = .fail .device stf ∧
      runProgram envF emptySys 3 = .fail .device stf :=
  ⟨by decide, stF, rfl,
    C7_fault_terminates envF emptySys 1 Err.device stF (by decide) rfl 3 (by omega)⟩

/-- Witness for C8 starting from a state with no directories. -/
theorem C8_witness :
    OUT_DIR ∉ emptySys.dirs ∧
    (startup emptySys).dirs = emptySys.dirs ++ [OUT_DIR] ∧
    OUT_DIR ∈ (startup emptySys).dirs ∧
    startup (startup emptySys) = startup emptySys := by
  refine ⟨by decide, ((C8_outdir_creation emptySys envW).2.1 (by decide)).1,
    (C8_outdir_creation emptySys envW).2.2.1, ?_⟩
  exact (C8_outdir_creation (startup emptySys) envW).1
    (C8_outdir_creation emptySys envW).2.2.1

/-- Witness for C9 at a concrete environment and two iterations. -/
theorem C9_witness :
    (∀ i, i < 2 → goodIter envW i) ∧
    ∃ st, runProgram envW emptySys 2 = .ok st ∧
      countAudio st.files ≤ 1 ∧
      (0 < 2 → countAudio st.files = 1 ∧
        fsRead st.files ("temp.wav") = some (.wav (audioOf envW 1))) ∧
      (2 = 0 → countAudio st.files = 0) :=
  ⟨by decide, C9_temp_file envW 2 (by decide)⟩

/-- Witness for C10 at a concrete environment and the empty state. -/
theorem C10_witness :
    goodIter envW 0 ∧
    (record_chunk envW 0 emptySys = record_chunk envW 0 emptySys ("temp.wav") 60 ∧
    ∃ st2, loopIter envW 0 emptySys = .ok st2 ∧
      fsRead st2.files ("temp.wav") = some (.wav (audioOf envW 0)) ∧
      fsRead st2.files (tpath envW 0) =
        some (.text ((envW.transcribeFn (audioOf envW 0)).text))) :=
  ⟨by decide, C10_same_path envW 0 emptySys (by decide)⟩
